import Mathlib

/-!
Verification of the Cream processing framework core
(`src/cream/core/parallel.py`, `src/cream/core/processor.py`,
`src/cream/audio/audio_processor.py`, `src/cream/text/text_processor.py`,
`src/cream/core/config.py`, `src/cream/core/exceptions.py`)
against its natural-language specification.

Python exceptions are embedded as `Except CreamError`; a Python function
that may raise becomes a Lean function returning `Except CreamError _`.
-/

namespace Cream

/-- Embeds the exception hierarchy of `src/cream/core/exceptions.py`:
`ValidationError`, `AudioProcessingError`, `TextProcessingError`
(all subclasses of `CreamError`), each carrying its message string. -/
inductive CreamError where
  | validation (msg : String)
  | audioProcessing (msg : String)
  | textProcessing (msg : String)
  deriving DecidableEq

/-- Processing-class errors in the taxonomy of spec section 7:
`AudioProcessingError` and `TextProcessingError`. -/
def CreamError.isProcessingClass : CreamError → Bool
  | .audioProcessing _ => true
  | .textProcessing _ => true
  | .validation _ => false

/-- `true` iff the computation did not raise. -/
def isOkB {ε β : Type} : Except ε β → Bool
  | .ok _ => true
  | .error _ => false

/-! ## Batch executor (`src/cream/core/parallel.py`)

`ParallelProcessor.process_batch` runs `worker_func` over the tasks.
With `num_workers == 1` it loops over `tasks` in submission order,
appending each result; a raise aborts the loop and propagates, and the
local result list is discarded.  With several workers it iterates
`pool.imap_unordered(worker_func, tasks)`, which yields results in
completion order (some permutation of the tasks, decided by the
scheduler); a worker exception is re-raised, unchanged in kind, when its
task is reached in that iteration.  The completion order is passed
explicitly as `sched`, the nondeterminism parameter of the embedding. -/

/-- One pass of the result-collection loop: runs `f` over the list in
order, recording which tasks were actually attempted (first component)
and either all results in order or the first raised error (second
component).  Tasks after the first failure are never attempted. -/
def runTasksTrace {α β ε : Type} (f : α → Except ε β) :
    List α → List α × Except ε (List β)
  | [] => ([], .ok [])
  | t :: ts =>
    match f t with
    | .error e => ([t], .error e)
    | .ok r =>
      let rest := runTasksTrace f ts
      (t :: rest.1,
        match rest.2 with
        | .ok rs => .ok (r :: rs)
        | .error e => .error e)

/-- The value returned to (or the exception propagated to) the caller of
the result-collection loop. -/
def runTasks {α β ε : Type} (f : α → Except ε β) (l : List α) :
    Except ε (List β) :=
  (runTasksTrace f l).2

/-- `ParallelProcessor` (`src/cream/core/parallel.py` line 15): holds the
configured worker count. -/
structure ParallelProcessor where
  num_workers : Nat

/-- `ParallelProcessor.process_batch` (`src/cream/core/parallel.py`
lines 21-53).  An empty task list returns `[]` at once; `num_workers == 1`
runs the sequential loop over `tasks` in submission order; otherwise the
pool yields results in completion order `sched` (a permutation of
`tasks` chosen by the scheduler, supplied here as a parameter). -/
def ParallelProcessor.process_batch {α β ε : Type} (p : ParallelProcessor)
    (worker_func : α → Except ε β) (tasks sched : List α) :
    Except ε (List β) :=
  if tasks.isEmpty then .ok []
  else if p.num_workers = 1 then runTasks worker_func tasks
  else runTasks worker_func sched

theorem runTasksTrace_ok {α β ε : Type} (f : α → Except ε β) (g : α → β) :
    ∀ l : List α, (∀ x ∈ l, f x = .ok (g x)) →
      runTasksTrace f l = (l, .ok (l.map g))
  | [], _ => rfl
  | t :: ts, h => by
    have ht : f t = .ok (g t) := h t (List.mem_cons_self t ts)
    have ih := runTasksTrace_ok f g ts (fun x hx => h x (List.mem_cons_of_mem t hx))
    simp [runTasksTrace, ht, ih]

theorem runTasksTrace_fail {α β ε : Type} (f : α → Except ε β) (e : ε) :
    ∀ (l₁ : List α) (t : α) (l₂ : List α),
      (∀ x ∈ l₁, isOkB (f x) = true) → f t = .error e →
      runTasksTrace f (l₁ ++ t :: l₂) = (l₁ ++ [t], .error e)
  | [], t, l₂, _, ht => by simp [runTasksTrace, ht]
  | x :: xs, t, l₂, h, ht => by
    obtain ⟨r, hr⟩ : ∃ r, f x = .ok r := by
      have hx : isOkB (f x) = true := h x (List.mem_cons_self x xs)
      cases hfx : f x with
      | ok r => exact ⟨r, rfl⟩
      | error e' => rw [hfx] at hx; simp [isOkB] at hx
    have ih := runTasksTrace_fail f e xs t l₂
      (fun y hy => h y (List.mem_cons_of_mem x hy)) ht
    simp [runTasksTrace, hr, ih]

theorem exists_first_fail {α β ε : Type} (f : α → Except ε β) :
    ∀ l : List α, (∃ t ∈ l, isOkB (f t) = false) →
      ∃ l₁ t l₂ e, l = l₁ ++ t :: l₂ ∧
        (∀ x ∈ l₁, isOkB (f x) = true) ∧ f t = .error e
  | [], h => by simp at h
  | a :: as, h => by
    cases ha : f a with
    | error e => exact ⟨[], a, as, e, rfl, by simp, ha⟩
    | ok r =>
      obtain ⟨t, ht, htf⟩ := h
      have htas : t ∈ as := by
        rcases List.mem_cons.mp ht with h1 | h1
        · subst h1; rw [ha] at htf; simp [isOkB] at htf
        · exact h1
      obtain ⟨l₁, t', l₂, e, hsplit, hok, hfail⟩ :=
        exists_first_fail f as ⟨t, htas, htf⟩
      refine ⟨a :: l₁, t', l₂, e, by simp [hsplit], ?_, hfail⟩
      intro x hx
      rcases List.mem_cons.mp hx with h1 | h1
      · subst h1; simp [isOkB, ha]
      · exact hok x h1

/-- C1: For every batch (any worker count), if the worker function raises
on some task, the batch call raises and returns no result sequence: no
partial results are returned, tasks not yet started are not attempted,
no retry occurs, and the triggering error propagates to the batch caller
unchanged in kind.  Formally: the active execution order (`tasks` when
`num_workers = 1`, the completion order `sched` otherwise) splits as
`l₁ ++ t :: l₂` with every task of `l₁` succeeding and `t` raising `e`;
the batch call returns `.error e` (the error of the failing task,
unchanged, and no result list), and the attempted tasks are exactly
`l₁ ++ [t]` — each attempted once, none of `l₂` attempted. -/
theorem process_batch_aborts_on_failure {α β ε : Type} (p : ParallelProcessor)
    (f : α → Except ε β) (tasks sched : List α) (hperm : sched.Perm tasks)
    (hfail : ∃ t ∈ tasks, isOkB (f t) = false) :
    ∃ e l₁ t l₂,
      (if p.num_workers = 1 then tasks else sched) = l₁ ++ t :: l₂ ∧
      (∀ x ∈ l₁, isOkB (f x) = true) ∧
      f t = .error e ∧
      p.process_batch f tasks sched = .error e ∧
      runTasksTrace f (if p.num_workers = 1 then tasks else sched) =
        (l₁ ++ [t], .error e) := by
  have hne : tasks.isEmpty = false := by
    obtain ⟨t, ht, _⟩ := hfail
    cases tasks with
    | nil => simp at ht
    | cons a as => rfl
  have hfail' : ∃ t ∈ (if p.num_workers = 1 then tasks else sched),
      isOkB (f t) = false := by
    obtain ⟨t, ht, htf⟩ := hfail
    by_cases hw : p.num_workers = 1
    · exact ⟨t, by simp [hw, ht], htf⟩
    · exact ⟨t, by simp [hw, hperm.mem_iff.mpr ht], htf⟩
  obtain ⟨l₁, t, l₂, e, hsplit, hok, hferr⟩ :=
    exists_first_fail f _ hfail'
  refine ⟨e, l₁, t, l₂, hsplit, hok, hferr, ?_, ?_⟩
  · by_cases hw : p.num_workers = 1
    · have : runTasksTrace f tasks = (l₁ ++ [t], .error e) := by
        rw [show tasks = l₁ ++ t :: l₂ by simpa [hw] using hsplit]
        exact runTasksTrace_fail f e l₁ t l₂ hok hferr
      simp [ParallelProcessor.process_batch, hne, hw, runTasks, this]
    · have : runTasksTrace f sched = (l₁ ++ [t], .error e) := by
        rw [show sched = l₁ ++ t :: l₂ by simpa [hw] using hsplit]
        exact runTasksTrace_fail f e l₁ t l₂ hok hferr
      simp [ParallelProcessor.process_batch, hne, hw, runTasks, this]
  · rw [hsplit]
    exact runTasksTrace_fail f e l₁ t l₂ hok hferr

/-- Concrete worker function used by the batch-executor witnesses: raises
on task `2`, succeeds elsewhere. -/
def failAtTwo : Nat → Except String Nat :=
  fun n => if n = 2 then .error "boom" else .ok n

/-- Witness for C1 at a concrete batch: two workers, tasks `[1, 2, 3]`
in completion order `[3, 2, 1]`, task `2` raising. -/
theorem process_batch_aborts_on_failure_witness :
    ∃ e l₁ t l₂,
      (if (ParallelProcessor.mk 2).num_workers = 1
        then [1, 2, 3] else [3, 2, 1]) = l₁ ++ t :: l₂ ∧
      (∀ x ∈ l₁, isOkB (failAtTwo x) = true) ∧
      failAtTwo t = .error e ∧
      (ParallelProcessor.mk 2).process_batch failAtTwo [1, 2, 3] [3, 2, 1] =
        .error e ∧
      runTasksTrace failAtTwo
        (if (ParallelProcessor.mk 2).num_workers = 1
          then [1, 2, 3] else [3, 2, 1]) = (l₁ ++ [t], .error e) :=
  process_batch_aborts_on_failure (ParallelProcessor.mk 2) failAtTwo
    [1, 2, 3] [3, 2, 1] (by decide) ⟨2, by decide, by decide⟩

/-- C2: For every non-empty task list processed with `worker_count == 1`
whose tasks all succeed, the batch executor returns the results in exact
task submission order, one task at a time: the result sequence is the
pointwise image of the task list. -/
theorem process_batch_sequential_order {α β ε : Type} (p : ParallelProcessor)
    (f : α → Except ε β) (g : α → β) (tasks sched : List α)
    (hw : p.num_workers = 1) (hne : tasks ≠ [])
    (h : ∀ t ∈ tasks, f t = .ok (g t)) :
    p.process_batch f tasks sched = .ok (tasks.map g) := by
  have hempty : tasks.isEmpty = false := by
    cases tasks with
    | nil => exact absurd rfl hne
    | cons a as => rfl
  simp [ParallelProcessor.process_batch, hempty, hw, runTasks,
    runTasksTrace_ok f g tasks h]

/-- Witness for C2: one worker on tasks `[1, 2, 3]` with worker
`fun n => .ok (n * 10)` returns `[10, 20, 30]` in submission order. -/
theorem process_batch_sequential_order_witness :
    (ParallelProcessor.mk 1).process_batch
        (fun n => (.ok (n * 10) : Except String Nat)) [1, 2, 3] [3, 2, 1] =
      .ok ([1, 2, 3].map (fun n => n * 10)) :=
  process_batch_sequential_order (ParallelProcessor.mk 1)
    (fun n => .ok (n * 10)) (fun n => n * 10) [1, 2, 3] [3, 2, 1]
    rfl (by decide) (fun t _ => rfl)

/-- C3: For every task list processed with `worker_count > 1` where every
task succeeds, the returned sequence is the image of the completion
order `sched`, hence a permutation (equal multiset) of the per-task
results — every task contributes exactly one result — while the order is
only that of `sched`, not guaranteed to match submission order. -/
theorem process_batch_parallel_multiset {α β ε : Type} (p : ParallelProcessor)
    (f : α → Except ε β) (g : α → β) (tasks sched : List α)
    (hw : 1 < p.num_workers) (hperm : sched.Perm tasks)
    (h : ∀ t ∈ tasks, f t = .ok (g t)) :
    p.process_batch f tasks sched = .ok (sched.map g) ∧
    (sched.map g).Perm (tasks.map g) := by
  have hw1 : p.num_workers ≠ 1 := by omega
  refine ⟨?_, hperm.map g⟩
  cases htasks : tasks.isEmpty with
  | true =>
    have : tasks = [] := by
      cases tasks with
      | nil => rfl
      | cons a as => simp at htasks
    have hsched : sched = [] := by
      subst this
      exact hperm.eq_nil
    simp [ParallelProcessor.process_batch, htasks, hsched]
  | false =>
    have h' : ∀ t ∈ sched, f t = .ok (g t) :=
      fun t ht => h t (hperm.mem_iff.mp ht)
    simp [ParallelProcessor.process_batch, htasks, hw1, runTasks,
      runTasksTrace_ok f g sched h']

/-- Witness for C3: three workers on tasks `[1, 2, 3]` completing in
order `[2, 3, 1]` return `[20, 30, 10]`, a permutation of the per-task
results `[10, 20, 30]`. -/
theorem process_batch_parallel_multiset_witness :
    (ParallelProcessor.mk 3).process_batch
        (fun n => (.ok (n * 10) : Except String Nat)) [1, 2, 3] [2, 3, 1] =
      .ok ([2, 3, 1].map (fun n => n * 10)) ∧
    ([2, 3, 1].map (fun n => n * 10)).Perm ([1, 2, 3].map (fun n => n * 10)) :=
  process_batch_parallel_multiset (ParallelProcessor.mk 3)
    (fun n => .ok (n * 10)) (fun n => n * 10) [1, 2, 3] [2, 3, 1]
    (by decide) (by decide) (fun t _ => rfl)

/-! ## Processor registry (`src/cream/core/processor.py` lines 118-208)

`ProcessorRegistry` keeps `self._processors`, a Python dict mapping a
name to a processor class.  A dict is embedded as an insertion-ordered
association list with unique keys: assigning to an existing key replaces
its value in place, assigning a fresh key appends.  The registry is kept
generic in the class type `κ`; calling a class (`cls()`) is a parameter
`call`, and the plain case — a constructor that does not raise — returns
an instance remembering its class, as `isinstance` would report. -/

/-- An instance produced by calling a class: `type(instance)` is the
class that was called. -/
structure PInstance (κ : Type) where
  ofClass : κ

/-- Calling a class whose constructor does not raise: returns an
instance of that class. -/
def callClass {κ : Type} (c : κ) : Except CreamError (PInstance κ) :=
  .ok ⟨c⟩

/-- Python dict assignment `d[k] = v`: replace in place when the key is
present, append otherwise. -/
def dictInsert {κ : Type} (k : String) (v : κ) :
    List (String × κ) → List (String × κ)
  | [] => [(k, v)]
  | (k', v') :: rest =>
    if k' = k then (k, v) :: rest else (k', v') :: dictInsert k v rest

/-- Python dict lookup `d[k]` / `k in d`: the value at the first (hence,
with unique keys, only) occurrence of the key. -/
def alookup {κ : Type} (k : String) : List (String × κ) → Option κ
  | [] => none
  | (k', v') :: rest => if k' = k then some v' else alookup k rest

/-- `ProcessorRegistry` (`src/cream/core/processor.py` line 118). -/
structure ProcessorRegistry (κ : Type) where
  _processors : List (String × κ)

/-- `ProcessorRegistry.register` (lines 124-132): `self._processors[name]
= processor_class`; total, never raises. -/
def ProcessorRegistry.register {κ : Type} (r : ProcessorRegistry κ)
    (name : String) (processor_class : κ) : ProcessorRegistry κ :=
  ⟨dictInsert name processor_class r._processors⟩

/-- `ProcessorRegistry.list_processors` (lines 177-179):
`list(self._processors.keys())`. -/
def ProcessorRegistry.list_processors {κ : Type} (r : ProcessorRegistry κ) :
    List String :=
  r._processors.map Prod.fst

/-- Python `str` of a string: repr quotes with a single quote
(`Char.ofNat 39`). -/
def pyReprStr (s : String) : String :=
  (Char.ofNat 39).toString ++ s ++ (Char.ofNat 39).toString

/-- Python `str` of a list of strings, as an f-string renders it:
`[` + comma-separated reprs + `]`. -/
def pyReprStrList (l : List String) : String :=
  "[" ++ String.intercalate ", " (l.map pyReprStr) ++ "]"

/-- `ProcessorRegistry.create` (lines 157-175): looks the name up; when
absent, raises `ValidationError` with the message built from the
requested name and `list(self._processors.keys())`; when present, calls
the registered class. -/
def ProcessorRegistry.create {κ ι : Type} (call : κ → Except CreamError ι)
    (r : ProcessorRegistry κ) (name : String) : Except CreamError ι :=
  match alookup name r._processors with
  | none => .error (.validation
      ("Processor " ++ pyReprStr name ++ " not found. Available: " ++
        pyReprStrList r.list_processors))
  | some c => call c

/-- `ProcessorRegistry.list_processors_by_base` (lines 181-200): iterates
the dict, appends each name whose class passes `issubclass(cls,
base_class)`, and silently skips (`except Exception: continue`) any
entry whose check itself raises.  The check is embedded as
`check : κ → Option Bool`, `none` meaning the check raised. -/
def ProcessorRegistry.list_processors_by_base {κ : Type}
    (check : κ → Option Bool) (r : ProcessorRegistry κ) : List String :=
  r._processors.filterMap (fun p =>
    match check p.2 with
    | some true => some p.1
    | _ => none)

theorem alookup_dictInsert_self {κ : Type} (k : String) (v : κ) :
    ∀ l : List (String × κ), alookup k (dictInsert k v l) = some v
  | [] => by simp [dictInsert, alookup]
  | (k', v') :: rest => by
    by_cases h : k' = k
    · simp [dictInsert, alookup, h]
    · simp [dictInsert, alookup, h, alookup_dictInsert_self k v rest]

theorem alookup_dictInsert_other {κ : Type} (k : String) (v : κ)
    (m : String) (hm : m ≠ k) :
    ∀ l : List (String × κ), alookup m (dictInsert k v l) = alookup m l
  | [] => by simp [dictInsert, alookup, Ne.symm hm]
  | (k', v') :: rest => by
    by_cases h : k' = k
    · subst h
      simp [dictInsert, alookup, Ne.symm hm]
    · simp only [dictInsert, if_neg h, alookup]
      by_cases h2 : k' = m
      · simp [h2]
      · simp [h2, alookup_dictInsert_other k v m hm rest]

theorem keys_dictInsert {κ : Type} (k : String) (v : κ) :
    ∀ l : List (String × κ),
      (dictInsert k v l).map Prod.fst =
        if k ∈ l.map Prod.fst then l.map Prod.fst
        else l.map Prod.fst ++ [k]
  | [] => by simp [dictInsert]
  | (k', v') :: rest => by
    by_cases h : k' = k
    · simp [dictInsert, h]
    · have hne : k ≠ k' := fun hh => h hh.symm
      simp only [dictInsert, if_neg h, List.map_cons,
        keys_dictInsert k v rest, List.mem_cons]
      by_cases hmem : k ∈ rest.map Prod.fst
      · simp [hmem, hne]
      · simp [hmem, hne]

theorem nodup_keys_dictInsert {κ : Type} (k : String) (v : κ)
    (l : List (String × κ)) (h : (l.map Prod.fst).Nodup) :
    ((dictInsert k v l).map Prod.fst).Nodup := by
  rw [keys_dictInsert]
  by_cases hmem : k ∈ l.map Prod.fst
  · simpa [hmem] using h
  · have hdj : List.Disjoint (l.map Prod.fst) [k] := by
      intro a ha hak
      rw [List.mem_singleton] at hak
      subst hak
      exact hmem ha
    simpa [hmem] using List.Nodup.append h (List.nodup_singleton k) hdj

theorem filter_key_eq_nil {κ : Type} (k : String) :
    ∀ l : List (String × κ), k ∉ l.map Prod.fst →
      l.filter (fun p => p.1 == k) = []
  | [], _ => rfl
  | (k', v') :: rest, h => by
    have h1 : k' ≠ k := fun hh => h (by simp [hh])
    have h2 : k ∉ rest.map Prod.fst := fun hh => h (by simp [hh])
    simp [List.filter_cons, h1, filter_key_eq_nil k rest h2]

theorem filter_dictInsert_self {κ : Type} (k : String) (v : κ) :
    ∀ l : List (String × κ), (l.map Prod.fst).Nodup →
      (dictInsert k v l).filter (fun p => p.1 == k) = [(k, v)]
  | [], _ => by simp [dictInsert, List.filter_cons]
  | (k', v') :: rest, h => by
    have hnd : (rest.map Prod.fst).Nodup := (List.nodup_cons.mp h).2
    by_cases hk : k' = k
    · subst hk
      have hout : k' ∉ rest.map Prod.fst := (List.nodup_cons.mp h).1
      simp [dictInsert, List.filter_cons, filter_key_eq_nil k' rest hout]
    · simp [dictInsert, hk, List.filter_cons,
        filter_dictInsert_self k v rest hnd]

/-- C4: For every registered pair `(name, class)`, `create name` calls
the registered class and — when the constructor does not raise — returns
an instance of that very class; for every name absent from the registry,
`create` fails with a `ValidationError` whose message carries the
requested name and the list of currently known names. -/
theorem create_found_or_not_found {κ ι : Type}
    (call : κ → Except CreamError ι) (r : ProcessorRegistry κ)
    (name : String) :
    (∀ c, alookup name r._processors = some c →
      ProcessorRegistry.create call r name = call c ∧
      ProcessorRegistry.create callClass r name = .ok (PInstance.mk c)) ∧
    (alookup name r._processors = none →
      ProcessorRegistry.create call r name = .error (.validation
        ("Processor " ++ pyReprStr name ++ " not found. Available: " ++
          pyReprStrList r.list_processors))) := by
  constructor
  · intro c hc
    constructor
    · simp [ProcessorRegistry.create, hc]
    · simp [ProcessorRegistry.create, hc, callClass]
  · intro hc
    simp [ProcessorRegistry.create, hc]

/-- Concrete registry for the registry witnesses: classes are tagged by
strings. -/
def reg0 : ProcessorRegistry String :=
  (ProcessorRegistry.mk []).register "alpha" "ClsA" |>.register "beta" "ClsB"

/-- Witness for C4: on `reg0`, `create "alpha"` returns an instance of
the registered class `ClsA`, and `create "missing"` raises the
`ValidationError` listing the known names. -/
theorem create_found_or_not_found_witness :
    ProcessorRegistry.create callClass reg0 "alpha" =
      .ok (PInstance.mk "ClsA") ∧
    ProcessorRegistry.create callClass reg0 "missing" = .error (.validation
      ("Processor " ++ pyReprStr "missing" ++ " not found. Available: " ++
        pyReprStrList reg0.list_processors)) :=
  ⟨((create_found_or_not_found callClass reg0 "alpha").1 "ClsA" rfl).2,
    (create_found_or_not_found callClass reg0 "missing").2 rfl⟩

theorem filterMap_check_eq_filter {κ : Type} (check : κ → Option Bool) :
    ∀ l : List (String × κ),
      l.filterMap (fun p =>
        match check p.2 with
        | some true => some p.1
        | _ => none) =
      (l.filter (fun p => check p.2 == some true)).map Prod.fst
  | [] => rfl
  | p :: ps => by
    have ih := filterMap_check_eq_filter check ps
    cases hc : check p.2 with
    | none => simp [List.filterMap_cons, List.filter_cons, hc, ih]
    | some b =>
      cases b with
      | true => simp [List.filterMap_cons, List.filter_cons, hc, ih]
      | false => simp [List.filterMap_cons, List.filter_cons, hc, ih]

/-- C7: For every registry state and capability check, the
capability-filtered listing returns exactly the names of the entries of
`listAll` whose class satisfies the check; an entry whose check itself
raises (`check = none`) is silently skipped — the function is total, and
only `some true` entries appear — so one malformed registration never
breaks enumeration of the rest. -/
theorem list_processors_by_base_spec {κ : Type} (check : κ → Option Bool)
    (r : ProcessorRegistry κ) :
    ProcessorRegistry.list_processors_by_base check r =
      (r._processors.filter (fun p => check p.2 == some true)).map Prod.fst ∧
    List.Sublist (ProcessorRegistry.list_processors_by_base check r)
      r.list_processors ∧
    (∀ n, n ∈ ProcessorRegistry.list_processors_by_base check r ↔
      ∃ c, (n, c) ∈ r._processors ∧ check c = some true) := by
  have heq : ProcessorRegistry.list_processors_by_base check r =
      (r._processors.filter (fun p => check p.2 == some true)).map Prod.fst :=
    filterMap_check_eq_filter check r._processors
  refine ⟨heq, ?_, ?_⟩
  · rw [heq]
    exact List.Sublist.map Prod.fst (List.filter_sublist r._processors)
  · intro n
    rw [heq]
    constructor
    · intro hn
      obtain ⟨⟨n', c⟩, hmem, hfst⟩ := List.mem_map.mp hn
      obtain ⟨hmem', hcheck⟩ := List.mem_filter.mp hmem
      refine ⟨c, ?_, ?_⟩
      · cases hfst
        exact hmem'
      · simpa using hcheck
    · intro ⟨c, hmem, hcheck⟩
      exact List.mem_map.mpr ⟨(n, c),
        List.mem_filter.mpr ⟨hmem, by simp [hcheck]⟩, rfl⟩

/-- A concrete capability check for the C7 witness: raises (`none`) on
the malformed tag `bad`, else reports whether the class is `AudioCls`. -/
def audioCheck : String → Option Bool :=
  fun c => if c = "bad" then none else some (c == "AudioCls")

/-- A concrete registry for the C7 witness: a well-formed audio class, a
well-formed non-audio class and a malformed entry whose check raises. -/
def reg1 : ProcessorRegistry String :=
  ProcessorRegistry.mk [("a", "AudioCls"), ("t", "TextCls"), ("m", "bad")]

/-- Witness for C7: on `reg1`, the filtered listing keeps exactly the
passing name and is a sublist of `list_processors`. -/
theorem list_processors_by_base_spec_witness :
    ProcessorRegistry.list_processors_by_base audioCheck reg1 =
      (reg1._processors.filter
        (fun p => audioCheck p.2 == some true)).map Prod.fst ∧
    List.Sublist (ProcessorRegistry.list_processors_by_base audioCheck reg1)
      reg1.list_processors :=
  ⟨(list_processors_by_base_spec audioCheck reg1).1,
    (list_processors_by_base_spec audioCheck reg1).2.1⟩

/-- C9: For every registry whose names are unique, registering a name —
already present or not — succeeds without error and leaves names unique,
the looked-up class for that name is the newly registered one, exactly
one descriptor exists for that name and it is the latest registration
(last write wins), and every other name is untouched. -/
theorem register_last_write_wins {κ : Type} (r : ProcessorRegistry κ)
    (name : String) (c : κ) (h : r.list_processors.Nodup) :
    ((r.register name c).list_processors).Nodup ∧
    alookup name (r.register name c)._processors = some c ∧
    (r.register name c)._processors.filter (fun p => p.1 == name) =
      [(name, c)] ∧
    (∀ m, m ≠ name →
      alookup m (r.register name c)._processors = alookup m r._processors) := by
  refine ⟨?_, ?_, ?_, ?_⟩
  · exact nodup_keys_dictInsert name c r._processors h
  · exact alookup_dictInsert_self name c r._processors
  · exact filter_dictInsert_self name c r._processors h
  · exact fun m hm => alookup_dictInsert_other name c m hm r._processors

/-- Witness for C9: re-registering `"alpha"` on `reg0` (which already
maps it to `ClsA`) replaces it with `ClsA2`, leaving one descriptor for
`"alpha"` and unique names. -/
theorem register_last_write_wins_witness :
    ((reg0.register "alpha" "ClsA2").list_processors).Nodup ∧
    alookup "alpha" (reg0.register "alpha" "ClsA2")._processors =
      some "ClsA2" ∧
    (reg0.register "alpha" "ClsA2")._processors.filter
      (fun p => p.1 == "alpha") = [("alpha", "ClsA2")] :=
  ⟨(register_last_write_wins reg0 "alpha" "ClsA2" (by decide)).1,
    (register_last_write_wins reg0 "alpha" "ClsA2" (by decide)).2.1,
    (register_last_write_wins reg0 "alpha" "ClsA2" (by decide)).2.2.1⟩

/-! ## Model-backed processors (`src/cream/core/processor.py` lines 101-115)

`ModelBackedProcessor.__init__` runs `self.model = self.load_model()`:
the abstract `load_model` hook is invoked during construction, its
result stored; if it raises, `__init__` raises and no object is handed
back to the caller.  No cache of any kind sits between instantiations. -/

/-- A fully constructed `ModelBackedProcessor`: it owns its loaded
model.  A value of this type exists only when construction succeeded. -/
structure ModelBackedProcessor (μ : Type) where
  model : μ

/-- `ModelBackedProcessor.__init__` with a fallible `load_model` hook:
on success the instance stores the loaded model, a raise in
`load_model` propagates and no instance is produced. -/
def ModelBackedProcessor.init {μ : Type} (load_model : Except CreamError μ) :
    Except CreamError (ModelBackedProcessor μ) :=
  match load_model with
  | .ok m => .ok ⟨m⟩
  | .error e => .error e

/-- `VAD_FSMN.load_model` (`src/cream/audio/analysis.py` lines 72-81):
`from funasr import AutoModel` either succeeds — modelled as
`funasr_import = some auto_model`, where `auto_model` stands for the
externally constructed `AutoModel` — or raises `ImportError`, on which
the code raises a bare `AudioProcessingError` (empty message). -/
def VAD_FSMN.load_model {μ : Type} (funasr_import : Option μ) :
    Except CreamError μ :=
  match funasr_import with
  | none => .error (.audioProcessing "")
  | some auto_model => .ok auto_model

/-- `ModelBackedProcessor.__init__` with a stateful `load_model` hook
(state `σ` threads through the call, so repeated instantiations observe
each invocation). -/
def ModelBackedProcessor.initS {μ σ : Type} (load_model : σ → μ × σ)
    (s : σ) : ModelBackedProcessor μ × σ :=
  let r := load_model s
  (⟨r.1⟩, r.2)

/-- Instruments a `load_model` hook with an invocation counter: each
call increments the counter by one. -/
def countCalls {μ σ : Type} (load_model : σ → μ × σ) :
    σ × Nat → μ × (σ × Nat) :=
  fun sk =>
    let r := load_model sk.1
    (r.1, (r.2, sk.2 + 1))

/-- `n` successive independent instantiations of the same model-backed
processor type, each running `__init__` (hence `load_model`) afresh. -/
def constructMany {μ σ : Type} (load_model : σ → μ × σ) :
    Nat → σ → List (ModelBackedProcessor μ) × σ
  | 0, s => ([], s)
  | n + 1, s =>
    let p := ModelBackedProcessor.initS load_model s
    let rest := constructMany load_model n p.2
    (p.1 :: rest.1, rest.2)

/-- The outputs of `n` successive direct calls of a stateful hook; the
reference against which `constructMany` is compared. -/
def runCalls {μ σ : Type} (load_model : σ → μ × σ) :
    Nat → σ → List μ
  | 0, _ => []
  | n + 1, s =>
    let r := load_model s
    r.1 :: runCalls load_model n r.2

/-- C5: For every model-backed processor, if `load_model` raises during
construction, construction fails entirely with exactly that error — no
instance is returned on which `process_single` could be attempted — and
in the repository the handled `load_model` failure path (`VAD_FSMN` with
`funasr` missing) surfaces as a processing-class error. -/
theorem modelbacked_construction_aborts {μ : Type}
    (load_model : Except CreamError μ) (e : CreamError)
    (h : load_model = .error e) :
    ModelBackedProcessor.init load_model = .error e ∧
    (∀ inst : ModelBackedProcessor μ,
      ModelBackedProcessor.init load_model ≠ .ok inst) ∧
    ModelBackedProcessor.init (VAD_FSMN.load_model (μ := μ) none) =
      .error (.audioProcessing "") ∧
    (CreamError.audioProcessing "").isProcessingClass = true := by
  refine ⟨?_, ?_, rfl, rfl⟩
  · rw [h]; rfl
  · intro inst hinst
    rw [h] at hinst
    exact Except.noConfusion hinst

/-- Witness for C5: constructing a `VAD_FSMN` whose `funasr` import is
missing fails with the bare `AudioProcessingError` and yields no
instance. -/
theorem modelbacked_construction_aborts_witness :
    ModelBackedProcessor.init (VAD_FSMN.load_model (μ := Nat) none) =
      .error (.audioProcessing "") ∧
    (∀ inst : ModelBackedProcessor Nat,
      ModelBackedProcessor.init (VAD_FSMN.load_model (μ := Nat) none) ≠
        .ok inst) ∧
    ModelBackedProcessor.init (VAD_FSMN.load_model (μ := Nat) none) =
      .error (.audioProcessing "") ∧
    (CreamError.audioProcessing "").isProcessingClass = true :=
  modelbacked_construction_aborts (VAD_FSMN.load_model (μ := Nat) none)
    (.audioProcessing "") rfl

/-- C6: For every model-backed processor type, `load_model` is invoked
exactly once per instantiation with no cross-instance cache: after `n`
instantiations the invocation counter has grown by exactly `n`, and the
`i`-th instance holds the model produced by the `i`-th fresh
`load_model` call (never a memoised earlier one). -/
theorem loadmodel_once_per_instantiation {μ σ : Type}
    (load_model : σ → μ × σ) (n : Nat) (s : σ) (k : Nat) :
    (constructMany (countCalls load_model) n (s, k)).2.2 = k + n ∧
    ((constructMany (countCalls load_model) n (s, k)).1.map
        ModelBackedProcessor.model) = runCalls load_model n s := by
  induction n generalizing s k with
  | zero => exact ⟨rfl, rfl⟩
  | succ m ih =>
    obtain ⟨ih1, ih2⟩ := ih (load_model s).2 (k + 1)
    constructor
    · have hstep : (constructMany (countCalls load_model) (m + 1) (s, k)).2.2 =
          (constructMany (countCalls load_model) m
            ((load_model s).2, k + 1)).2.2 := by
        simp [constructMany, ModelBackedProcessor.initS, countCalls]
      rw [hstep, ih1]
      omega
    · simp [constructMany, ModelBackedProcessor.initS, countCalls,
        runCalls, ih2]

/-- Witness for C6: three instantiations with a counting hook perform
exactly three `load_model` calls, and the instances hold the three
successively loaded models. -/
theorem loadmodel_once_per_instantiation_witness :
    (constructMany (countCalls (fun s => (s, s + 1))) 3 (0, 0)).2.2 = 0 + 3 ∧
    ((constructMany (countCalls (fun s => (s, s + 1))) 3 (0, 0)).1.map
        ModelBackedProcessor.model) = runCalls (fun s => (s, s + 1)) 3 0 :=
  loadmodel_once_per_instantiation (fun s => (s, s + 1)) 3 0 0

/-! ## Input validation (`src/cream/audio/audio_processor.py` lines 16-28,
`src/cream/text/text_processor.py` lines 16-28,
`src/cream/core/processor.py` lines 57-71, `src/cream/core/config.py`)

A `pathlib.Path` is embedded as its path string together with the
observable `exists()`; `Path.name` is the last `/`-separated component
and `Path.suffix` follows CPython: the extension from the last dot of
the name, empty when the dot is absent, leading, or trailing.
`str.lower` maps characters to lower case; Python string comparison
(used by `sorted`) is code-point lexicographic. -/

/-- Python code-point lexicographic `<` on strings (as char lists). -/
def pyStrLtB : List Char → List Char → Bool
  | [], [] => false
  | [], _ :: _ => true
  | _ :: _, [] => false
  | a :: as, b :: bs =>
    if a.val < b.val then true
    else if b.val < a.val then false
    else pyStrLtB as bs

/-- Python `<=` on strings: not strictly greater. -/
def pyStrLeB (a b : String) : Bool :=
  !(pyStrLtB b.data a.data)

/-- Insert into an ascending list, keeping ascending order. -/
def pyInsertAsc (s : String) : List String → List String
  | [] => [s]
  | t :: ts => if !(pyStrLtB t.data s.data) then s :: t :: ts
    else t :: pyInsertAsc s ts

/-- Python `sorted` on strings: ascending in code-point order. -/
def pySorted (l : List String) : List String := l.foldr pyInsertAsc []

/-- Python `str.lower` (the extensions involved are ASCII). -/
def pyLower (s : String) : String := String.mk (s.data.map Char.toLower)

/-- `str.rfind` specialised to the dot: index of the last occurrence. -/
def pyRFindDot (l : List Char) : Option Nat :=
  match l.reverse.findIdx? (fun c => c == '.') with
  | none => none
  | some j => some (l.length - 1 - j)

/-- CPython `PurePath.suffix`: `name[i:]` for `i = name.rfind(".")` when
`0 < i < len(name) - 1`, else the empty string. -/
def pySuffix (name : String) : String :=
  match pyRFindDot name.data with
  | none => ""
  | some i =>
    if 0 < i ∧ i < name.data.length - 1 then String.mk (name.data.drop i)
    else ""

/-- A `pathlib.Path` argument, reduced to the observables the validators
read: the path string and whether the file exists on disk. -/
structure PyPath where
  pathStr : String
  fsExists : Bool

/-- The characters after the last `/`, i.e. the final path component of
a file path. -/
def afterLastSlash (l : List Char) : List Char :=
  l.foldl (fun acc c => if c == '/' then [] else acc ++ [c]) []

/-- `Path.name`: the final path component. -/
def PyPath.name (p : PyPath) : String :=
  String.mk (afterLastSlash p.pathStr.data)

/-- `Path.suffix` of the argument. -/
def PyPath.suffix (p : PyPath) : String := pySuffix p.name

/-- `config.audio_formats` (`src/cream/core/config.py` lines 68-79). -/
def audio_formats : List String :=
  [".wav", ".flac", ".mp3", ".ogg", ".opus", ".m4a", ".aiff", ".ac3", ".wma"]

/-- `config.text_formats` (`src/cream/core/config.py` lines 80-82). -/
def text_formats : List String := [".txt", ".csv", ".tsv", ".json"]

/-- `BaseAudioProcessor.SUPPORTED_FORMATS`
(`src/cream/audio/audio_processor.py` lines 16-19):
`set(config.audio_formats)`; the set is only queried for membership and
fed to `sorted`, so it is embedded as the duplicate-free list. -/
def BaseAudioProcessor.SUPPORTED_FORMATS : List String :=
  audio_formats.dedup

/-- `BaseTextProcessor.SUPPORTED_FORMATS`
(`src/cream/text/text_processor.py` lines 16-19):
`set(config.text_formats)`. -/
def BaseTextProcessor.SUPPORTED_FORMATS : List String :=
  text_formats.dedup

/-- `BaseProcessor.validate_input` (`src/cream/core/processor.py` lines
57-71): raises `ValidationError` when the input file does not exist. -/
def BaseProcessor.validate_input (p : PyPath) : Except CreamError Unit :=
  if p.fsExists then .ok ()
  else .error (.validation ("Input file not found: " ++ p.pathStr))

/-- `BaseAudioProcessor.validate_input`
(`src/cream/audio/audio_processor.py` lines 21-28): the base existence
check, then `input_path.suffix.lower() not in self.SUPPORTED_FORMATS`
raises `ValidationError` with the sorted allow-list in the message. -/
def BaseAudioProcessor.validate_input (p : PyPath) :
    Except CreamError Unit := do
  BaseProcessor.validate_input p
  if pyLower p.suffix ∉ BaseAudioProcessor.SUPPORTED_FORMATS then
    .error (.validation ("Unsupported audio format: " ++ p.suffix ++
      ". Supported formats: " ++
      pyReprStrList (pySorted BaseAudioProcessor.SUPPORTED_FORMATS)))
  else pure ()

/-- `BaseTextProcessor.validate_input`
(`src/cream/text/text_processor.py` lines 21-28): the base existence
check, then the same extension check against the text allow-list. -/
def BaseTextProcessor.validate_input (p : PyPath) :
    Except CreamError Unit := do
  BaseProcessor.validate_input p
  if pyLower p.suffix ∉ BaseTextProcessor.SUPPORTED_FORMATS then
    .error (.validation ("Unsupported text format: " ++ p.suffix ++
      ". Supported formats: " ++
      pyReprStrList (pySorted BaseTextProcessor.SUPPORTED_FORMATS)))
  else pure ()

/-- C8: For each capability-specific processor (audio and text) and
every existing input whose (case-normalised) extension is outside that
capability's allow-list, `validate_input` fails with a
`ValidationError` whose message enumerates the supported formats in
sorted order, exactly; the enumerated list is indeed the allow-list
sorted ascending in Python string order. -/
theorem validate_input_rejects_unsupported (p : PyPath)
    (hex : p.fsExists = true) :
    (pyLower p.suffix ∉ BaseAudioProcessor.SUPPORTED_FORMATS →
      BaseAudioProcessor.validate_input p = .error (.validation
        ("Unsupported audio format: " ++ p.suffix ++
          ". Supported formats: " ++
          pyReprStrList (pySorted BaseAudioProcessor.SUPPORTED_FORMATS)))) ∧
    (pyLower p.suffix ∉ BaseTextProcessor.SUPPORTED_FORMATS →
      BaseTextProcessor.validate_input p = .error (.validation
        ("Unsupported text format: " ++ p.suffix ++
          ". Supported formats: " ++
          pyReprStrList (pySorted BaseTextProcessor.SUPPORTED_FORMATS)))) ∧
    List.Sorted (fun a b => pyStrLeB a b = true)
      (pySorted BaseAudioProcessor.SUPPORTED_FORMATS) ∧
    List.Sorted (fun a b => pyStrLeB a b = true)
      (pySorted BaseTextProcessor.SUPPORTED_FORMATS) ∧
    (pySorted BaseAudioProcessor.SUPPORTED_FORMATS).Perm
      BaseAudioProcessor.SUPPORTED_FORMATS ∧
    (pySorted BaseTextProcessor.SUPPORTED_FORMATS).Perm
      BaseTextProcessor.SUPPORTED_FORMATS := by
  refine ⟨?_, ?_, by decide, by decide, by decide, by decide⟩
  · intro hnot
    simp only [BaseAudioProcessor.validate_input,
      BaseProcessor.validate_input, hex, if_true, if_pos hnot]
    rfl
  · intro hnot
    simp only [BaseTextProcessor.validate_input,
      BaseProcessor.validate_input, hex, if_true, if_pos hnot]
    rfl

/-- Witness for C8: the existing file `clip.xyz` is rejected by both the
audio and the text validator, each message carrying the sorted
allow-list. -/
theorem validate_input_rejects_unsupported_witness :
    BaseAudioProcessor.validate_input (PyPath.mk "clip.xyz" true) =
      .error (.validation
        ("Unsupported audio format: " ++ (PyPath.mk "clip.xyz" true).suffix ++
          ". Supported formats: " ++
          pyReprStrList (pySorted BaseAudioProcessor.SUPPORTED_FORMATS))) ∧
    BaseTextProcessor.validate_input (PyPath.mk "clip.xyz" true) =
      .error (.validation
        ("Unsupported text format: " ++ (PyPath.mk "clip.xyz" true).suffix ++
          ". Supported formats: " ++
          pyReprStrList (pySorted BaseTextProcessor.SUPPORTED_FORMATS))) :=
  ⟨(validate_input_rejects_unsupported (PyPath.mk "clip.xyz" true) rfl).1
      (by decide),
    (validate_input_rejects_unsupported (PyPath.mk "clip.xyz" true) rfl).2.1
      (by decide)⟩

/-- C10: The extension check is case-insensitive at the public
interface: for every existing input, each validator accepts exactly when
the lowercased extension is in its allow-list, so a file whose extension
differs from an allow-listed format only in case is accepted, not
rejected. -/
theorem validate_input_case_insensitive (p : PyPath)
    (hex : p.fsExists = true) :
    (BaseAudioProcessor.validate_input p = .ok () ↔
      pyLower p.suffix ∈ BaseAudioProcessor.SUPPORTED_FORMATS) ∧
    (BaseTextProcessor.validate_input p = .ok () ↔
      pyLower p.suffix ∈ BaseTextProcessor.SUPPORTED_FORMATS) := by
  constructor
  · constructor
    · intro hok
      by_contra hnot
      rw [(validate_input_rejects_unsupported p hex).1 hnot] at hok
      exact Except.noConfusion hok
    · intro hmem
      simp [BaseAudioProcessor.validate_input, BaseProcessor.validate_input,
        hex, hmem]
  · constructor
    · intro hok
      by_contra hnot
      rw [(validate_input_rejects_unsupported p hex).2.1 hnot] at hok
      exact Except.noConfusion hok
    · intro hmem
      simp [BaseTextProcessor.validate_input, BaseProcessor.validate_input,
        hex, hmem]

/-- Witness for C10: the existing files `take.WAV` and `notes.TXT`,
whose extensions differ from allow-listed formats only in case, are
accepted. -/
theorem validate_input_case_insensitive_witness :
    BaseAudioProcessor.validate_input (PyPath.mk "take.WAV" true) =
      .ok () ∧
    BaseTextProcessor.validate_input (PyPath.mk "notes.TXT" true) =
      .ok () :=
  ⟨(validate_input_case_insensitive (PyPath.mk "take.WAV" true) rfl).1.mpr
      (by decide),
    (validate_input_case_insensitive (PyPath.mk "notes.TXT" true) rfl).2.mpr
      (by decide)⟩

end Cream
